import Mathlib

/-!
Verification development for the batch-processing and subtitle-editing core of
the VideoCaptioner repository (files app/view/batch_process_interface.py and
app/view/subtitle_optimization_interface.py).

The embedding models:
  - the batch scheduler of BatchProcessInterface (task cards with a status,
    Qt signal connections as connection counters, the processing flag, and a
    trace of observable events);
  - the completion-action dispatcher of on_batch_finished / timedMessageBox;
  - the subtitle table model (setData point edits) and the row-merge
    algorithm merge_selected_rows of SubtitleOptimizationInterface;
  - the FIFO file-intake queue (deque extend / popleft).

Qt and the worker threads are external collaborators: signal emission is
modelled as calling each connected handler once per connection (connections
added during an emission are not invoked by that emission, matching Qt), and
the status transitions performed by the worker threads (which are not part of
the two source files) are modelled from the spec where noted.
-/

/-- Task.Status from app/core/entities (six states used by the two views). -/
inductive Status
  | pending
  | transcribing
  | optimizing
  | generating
  | completed
  | failed
deriving DecidableEq, Repr

/-- The terminal statuses, [Task.Status.COMPLETED, Task.Status.FAILED], used by
every scan of the scheduler. -/
def Status.isTerminal : Status → Bool
  | .completed => true
  | .failed => true
  | _ => false

/-- Task.Type: the two kinds handled by TaskInfoCard.start (SUBTITLE starts a
SubtitlePipelineThread, TRANSCRIBE a TranscriptThread). -/
inductive TaskType
  | transcribe
  | subtitle
deriving DecidableEq, Repr

/-- One TaskInfoCard: its task status and, for each of the two card signals the
scheduler listens to, the number of live connections (Qt invokes a slot once
per connection when the signal is emitted). -/
structure Card where
  status : Status
  ttype : TaskType
  finConn : Nat
  errConn : Nat
deriving DecidableEq, Repr

/-- Observable scheduler events: a card being started (TaskInfoCard.start
dispatching work), a card receiving TaskInfoCard.stop, and the
batch-finished handler running. -/
inductive Ev
  | started (i : Nat)
  | stopped (i : Nat)
  | batchFinished
deriving DecidableEq, Repr

/-- State of a BatchProcessInterface: the task-card list, the processing flag,
and the trace of events so far. -/
structure SchedState where
  cards : List Card
  processing : Bool
  trace : List Ev
deriving DecidableEq, Repr

/-- The scan shared by start_batch_process, on_task_finished and
on_task_error: index of the first card whose task status is not in
[COMPLETED, FAILED], scanning from the beginning of the list. -/
def firstNonTerminal : List Card → Option Nat
  | [] => none
  | c :: cs =>
    if c.status.isTerminal then (firstNonTerminal cs).map (· + 1)
    else some 0

/-- task_card.finished.connect(self.on_task_finished): one more connection of
the finished signal of card i. -/
def connectFin (s : SchedState) (i : Nat) : SchedState :=
  match s.cards[i]? with
  | none => s
  | some c => { s with cards := s.cards.set i { c with finConn := c.finConn + 1 } }

/-- task_card.error.connect(self.on_task_error): one more connection of the
error signal of card i. -/
def connectErr (s : SchedState) (i : Nat) : SchedState :=
  match s.cards[i]? with
  | none => s
  | some c => { s with cards := s.cards.set i { c with errConn := c.errConn + 1 } }

/-- Modelled from the spec: the first in-progress status a started job of the
given kind enters. The worker threads (TranscriptThread and
SubtitlePipelineThread) that perform this transition are outside the two
source files; per the spec both kinds begin with transcription. -/
def runningStatusFor : TaskType → Status
  | .transcribe => .transcribing
  | .subtitle => .transcribing

/-- TaskInfoCard.start: a COMPLETED task is a warning no-op; otherwise the
card dispatches its worker thread and the event is recorded, and the task
status moves to the first in-progress state (see runningStatusFor). -/
def card_start (s : SchedState) (i : Nat) : SchedState :=
  match s.cards[i]? with
  | none => s
  | some c =>
    if c.status = .completed then s
    else
      { s with
          cards := s.cards.set i { c with status := runningStatusFor c.ttype }
          trace := s.trace ++ [.started i] }

/-- State effect of BatchProcessInterface.on_batch_finished: the
batch-finished event is recorded and the processing flag is cleared (the
completion-action branch on the todo combobox is modelled separately by
completion_dispatch, since it depends on the external dialog and platform). -/
def on_batch_finished (s : SchedState) : SchedState :=
  { s with processing := false, trace := s.trace ++ [.batchFinished] }

/-- BatchProcessInterface.on_task_finished: scan for the next card whose task
is not terminal; if one exists, connect its finished signal (only finished,
not error) and start it, otherwise run on_batch_finished. -/
def on_task_finished (s : SchedState) : SchedState :=
  match firstNonTerminal s.cards with
  | some i => card_start (connectFin s i) i
  | none => on_batch_finished s

/-- BatchProcessInterface.on_task_error: identical advance logic to
on_task_finished (it also connects only the finished signal of the next
card). -/
def on_task_error (s : SchedState) : SchedState :=
  match firstNonTerminal s.cards with
  | some i => card_start (connectFin s i) i
  | none => on_batch_finished s

/-- Iterate a handler n times (one invocation per live signal connection). -/
def runN : Nat → (SchedState → SchedState) → SchedState → SchedState
  | 0, _, s => s
  | n + 1, f, s => runN n f (f s)

/-- Emission of the finished signal of card i: on_task_finished runs once per
connection present at emission time (connections added during the emission are
not invoked by it, as in Qt). -/
def emitFinished (s : SchedState) (i : Nat) : SchedState :=
  match s.cards[i]? with
  | none => s
  | some c => runN c.finConn on_task_finished s

/-- Emission of the error signal of card i: on_task_error runs once per
connection present at emission time. -/
def emitError (s : SchedState) (i : Nat) : SchedState :=
  match s.cards[i]? with
  | none => s
  | some c => runN c.errConn on_task_error s

/-- TaskInfoCard.on_finished, the worker-thread success callback: the task
status becomes COMPLETED and the finished signal of the card is emitted. -/
def card_on_finished (s : SchedState) (i : Nat) : SchedState :=
  match s.cards[i]? with
  | none => s
  | some c =>
    emitFinished { s with cards := s.cards.set i { c with status := .completed } } i

/-- TaskInfoCard.on_error, the worker-thread error callback: the task status
becomes FAILED and the error signal of the card is emitted. -/
def card_on_error (s : SchedState) (i : Nat) : SchedState :=
  match s.cards[i]? with
  | none => s
  | some c =>
    emitError { s with cards := s.cards.set i { c with status := .failed } } i

/-- TaskInfoCard.stop: terminate the worker threads and reset the card UI.
The task status is not touched by this method. -/
def card_stop (s : SchedState) (i : Nat) : SchedState :=
  match s.cards[i]? with
  | none => s
  | some _ => { s with trace := s.trace ++ [.stopped i] }

/-- TaskInfoCard.cancel: stop, force the task status to PENDING regardless of
its previous value, then emit the finished signal of the card. -/
def card_cancel (s : SchedState) (i : Nat) : SchedState :=
  match s.cards[i]? with
  | none => s
  | some c =>
    let s1 := card_stop s i
    let s2 := { s1 with cards := s1.cards.set i { c with status := .pending } }
    emitFinished s2 i

/-- BatchProcessInterface.start_batch_process: the processing flag is set
first; an empty card list produces a warning and an early return (with the
flag left set); otherwise the first card with a non-terminal task status gets
its finished and error signals connected and is started, and if every card is
already terminal the batch finishes immediately. -/
def start_batch_process (s : SchedState) : SchedState :=
  let s0 := { s with processing := true }
  if s0.cards.isEmpty then s0
  else
    let s1 :=
      match firstNonTerminal s0.cards with
      | some i => card_start (connectErr (connectFin s0 i) i) i
      | none => s0
    if s1.cards.all (fun c => c.status.isTerminal) then on_batch_finished s1
    else s1

/-- BatchProcessInterface.cancel_batch_process: clear the processing flag and
call TaskInfoCard.stop (not TaskInfoCard.cancel) on every card whose task
status is in [TRANSCRIBING, PENDING, OPTIMIZING, GENERATING]. Task statuses
are not modified. -/
def cancel_batch_process (s : SchedState) : SchedState :=
  let stops := (List.range s.cards.length).filter fun i =>
    match s.cards[i]? with
    | some c =>
        c.status = .transcribing || c.status = .pending ||
        c.status = .optimizing || c.status = .generating
    | none => false
  { s with processing := false, trace := s.trace ++ stops.map Ev.stopped }

/-- TodoWhenDoneEnum: the four completion policies offered by the combobox in
BatchProcessInterface (index 0, do nothing, is the default). -/
inductive TodoWhenDone
  | doNothing
  | exitApp
  | suspend
  | shutdown
deriving DecidableEq, Repr

/-- How the timedMessageBox countdown ends: the user clicks Ok, the user
clicks Cancel, or the QTimer singleShot fires after the timeout and closes the
box. -/
inductive UserAction
  | clickOk
  | clickCancel
  | waitTimeout
deriving DecidableEq, Repr

/-- Result of QMessageBox.exec. Modelled from Qt (external collaborator):
closing a message box that owns a Cancel button is equivalent to pressing
Cancel, so the timed auto-close returns Cancel, not Ok. -/
inductive BoxResult
  | ok
  | cancel
deriving DecidableEq, Repr

/-- exec() of the timedMessageBox under each way the countdown can end. -/
def execResult : UserAction → BoxResult
  | .clickOk => .ok
  | .clickCancel => .cancel
  | .waitTimeout => .cancel

/-- sys.platform values distinguished by on_batch_finished. -/
inductive Platform
  | win32
  | darwin
  | linux
deriving DecidableEq, Repr

/-- Outcome of the completion-action branch: no platform command, one platform
command issued via os.system or QCoreApplication.quit, or a raised
AttributeError (the non-win32 shutdown branch calls self.stop() and
BatchProcessInterface has no stop method). -/
inductive DispatchOutcome
  | noCmd
  | suspendHost
  | shutdownHost
  | quitApp
  | attrError
deriving DecidableEq, Repr

/-- The completion-action logic of BatchProcessInterface.on_batch_finished:
the match on the todo combobox. For SUSPEND and SHUTDOWN a timedMessageBox
with a 60 second timeout is shown (the second component is its timeout, none
when no dialog is shown), and the os command runs exactly when exec returned
Ok. On non-win32 shutdown the code calls the missing self.stop first, raising
AttributeError before any command. -/
def completion_dispatch (plat : Platform) (todo : TodoWhenDone) (act : UserAction) :
    DispatchOutcome × Option Nat :=
  match todo with
  | .doNothing => (.noCmd, none)
  | .exitApp => (.quitApp, none)
  | .suspend =>
    (if execResult act = .ok then .suspendHost else .noCmd, some 60)
  | .shutdown =>
    (if execResult act = .ok then
      match plat with
      | .win32 => .shutdownHost
      | _ => .attrError
     else .noCmd, some 60)

/-- One subtitle entry of the table model: the dict with keys start_time,
end_time, original_subtitle, translated_subtitle (times in milliseconds). -/
structure Entry where
  start_time : Int
  end_time : Int
  original_subtitle : String
  translated_subtitle : String
deriving DecidableEq, Repr

/-- The model _data: an ordered dict, embedded as the ordered list of its
key-value pairs (Python dicts preserve insertion order and have unique
keys). -/
abbrev Doc := List (String × Entry)

/-- Placeholder entry for out-of-range positional access; every claim below
only accesses rows that exist (Python would raise IndexError or KeyError
otherwise). -/
def dummyEntry : Entry := ⟨0, 0, "", ""⟩

/-- Decimal digit value of a character, none for a non-digit. -/
def digitVal (c : Char) : Option Nat :=
  if c.isDigit then some (c.toNat - 48) else none

/-- Modelled from Qt (external collaborator): QTime.fromString with the fixed
format hh:mm:ss.zzz, returning the milliseconds since midnight of a valid
parse and none for an invalid one (Qt returns an invalid QTime). The string
must consist of exactly two digit hours, minutes and seconds separated by
colons and three digit milliseconds after a dot, with the field values in
range. -/
def qtimeFromString (s : String) : Option Nat :=
  match s.toList with
  | [h1, h2, c1, m1, m2, c2, p1, p2, d1, z1, z2, z3] =>
    if c1 = ':' ∧ c2 = ':' ∧ d1 = '.' then
      match digitVal h1, digitVal h2, digitVal m1, digitVal m2, digitVal p1,
            digitVal p2, digitVal z1, digitVal z2, digitVal z3 with
      | some a, some b, some c, some d, some e, some f, some g, some h, some i =>
        let hh := a * 10 + b
        let mm := c * 10 + d
        let ss := e * 10 + f
        let zzz := (g * 10 + h) * 10 + i
        if hh < 24 ∧ mm < 60 ∧ ss < 60 then
          some (((hh * 60 + mm) * 60 + ss) * 1000 + zzz)
        else none
      | _, _, _, _, _, _, _, _, _ => none
    else none
  | _ => none

/-- QTime(0,0,0).msecsTo(t). Modelled from Qt: msecsTo returns 0 when either
time is invalid, and midnight is valid, so an invalid t yields 0. -/
def msecsTo_from_midnight : Option Nat → Int
  | none => 0
  | some v => (v : Int)

/-- The Qt item roles relevant to SubtitleTableModel.setData. -/
inductive ItemRole
  | displayRole
  | editRole
deriving DecidableEq, Repr

/-- SubtitleTableModel.setData: under EditRole the item of the given row is
mutated in place; time columns store QTime(0,0,0).msecsTo(QTime.fromString
(value)), text columns store the string; the method then emits dataChanged
and returns True unconditionally. Any other role returns False. -/
def setData (data : Doc) (row col : Nat) (value : String) (role : ItemRole) :
    Doc × Bool :=
  match role with
  | .editRole =>
    match data[row]? with
    | none => (data, true)
    | some (k, item) =>
      let item' :=
        if col = 0 then
          { item with start_time := msecsTo_from_midnight (qtimeFromString value) }
        else if col = 1 then
          { item with end_time := msecsTo_from_midnight (qtimeFromString value) }
        else if col = 2 then { item with original_subtitle := value }
        else if col = 3 then { item with translated_subtitle := value }
        else item
      (data.set row (k, item'), true)
  | _ => (data, false)

/-- The merged item computed by merge_selected_rows: start_time of the first
selected row, end_time of the last selected row, and the space-joined
original and translated texts of the selected rows in selection (equals
document) order. -/
def merged_entry (data : Doc) (rows : List Nat) : Entry :=
  let data_list := data.map Prod.snd
  let first_row := data_list.getD (rows.headD 0) dummyEntry
  let last_row := data_list.getD (rows.getLastD 0) dummyEntry
  { start_time := first_row.start_time
    end_time := last_row.end_time
    original_subtitle :=
      String.intercalate " "
        (rows.map fun r => (data_list.getD r dummyEntry).original_subtitle)
    translated_subtitle :=
      String.intercalate " "
        (rows.map fun r => (data_list.getD r dummyEntry).translated_subtitle) }

/-- The new_data building loop of merge_selected_rows: iterate over the
preserved keys with their enumeration index i; when i equals rows[0] the
merged item is inserted first; every insertion uses the next dense key
str(len(new_data) + 1). The first Nat argument is i, the second the current
length of new_data. -/
def mergeLoop (lk : String → Entry) (merged : Entry) (r0 : Nat) :
    Nat → Nat → List String → Doc
  | _, _, [] => []
  | i, n, key :: rest =>
    if i = r0 then
      (toString (n + 1), merged) :: (toString (n + 2), lk key) ::
        mergeLoop lk merged r0 (i + 1) (n + 2) rest
    else
      (toString (n + 1), lk key) :: mergeLoop lk merged r0 (i + 1) (n + 1) rest

/-- SubtitleOptimizationInterface.merge_selected_rows on the model data, with
rows the sorted list of selected row indices: fewer than two rows is a no-op;
otherwise the keys inside the positional span from rows[0] to rows[-1] are
dropped, the loop re-keys the preserved entries densely while inserting the
merged item at enumeration index rows[0], and when rows[0] is beyond the
preserved keys the merged item is appended at the end. -/
def merge_selected_rows (data : Doc) (rows : List Nat) : Doc :=
  if rows.isEmpty || rows.length < 2 then data
  else
    let merged_item := merged_entry data rows
    let keys := data.map Prod.fst
    let r0 := rows.headD 0
    let rLast := rows.getLastD 0
    let preserved_keys := keys.take r0 ++ keys.drop (rLast + 1)
    let body :=
      mergeLoop (fun k => (data.lookup k).getD dummyEntry) merged_item r0 0 0
        preserved_keys
    if preserved_keys.length ≤ r0 then
      body ++ [(toString (body.length + 1), merged_item)]
    else body

/-- file_queue.extend(file_paths) in on_batch_file_select: append the selected
paths at the tail of the intake deque, preserving their order. -/
def file_queue_extend (q : List String) (paths : List String) : List String :=
  q ++ paths

/-- SubtitleOptimizationInterface._process_next_file: an empty queue is an
early return (no error, nothing changes); otherwise popleft removes the head
and that path is loaded (returned here as the second component). -/
def process_next_file (q : List String) : List String × Option String :=
  match q with
  | [] => (q, none)
  | p :: rest => (rest, some p)

/-- Dense re-keying used to describe the output of the merge loop: pair the
entries of a list with the string keys n+1, n+2, and so on. -/
def numberFrom : Nat → List Entry → Doc
  | _, [] => []
  | n, e :: es => (toString (n + 1), e) :: numberFrom (n + 1) es

/-- A batch of three freshly added pending tasks (no signal connected yet),
before the batch is started. -/
def threePending : SchedState :=
  ⟨[⟨.pending, .transcribe, 0, 0⟩, ⟨.pending, .transcribe, 0, 0⟩,
    ⟨.pending, .transcribe, 0, 0⟩], false, []⟩

/-- The state reached from threePending when the batch is started, the first
worker succeeds, and the second worker then reports an error. -/
def afterSecondJobFails : SchedState :=
  card_on_error (card_on_finished (start_batch_process threePending) 0) 1

/-- The three-entry document of the merge scenario in the spec. -/
def doc3 : Doc :=
  [("1", ⟨0, 1000, "a", "A"⟩), ("2", ⟨1000, 2000, "b", "B"⟩),
   ("3", ⟨2000, 3000, "c", "C"⟩)]

/-- An active batch over a single pending task, obtained by starting it. -/
def busyState : SchedState :=
  start_batch_process ⟨[⟨.pending, .transcribe, 0, 0⟩], false, []⟩

/-- An active batch whose only card is already COMPLETED and still has its
finished signal connected to on_task_finished from the run that completed
it. -/
def completedConnected : SchedState :=
  ⟨[⟨.completed, .transcribe, 1, 1⟩], true, []⟩

/-- An active batch whose single card is mid-transcription. -/
def runningOneCard : SchedState :=
  ⟨[⟨.transcribing, .transcribe, 1, 1⟩], true, [.started 0]⟩

/-! ## Helper lemmas -/

theorem mem_of_getElem?_some {α : Type} {l : List α} {i : Nat} {a : α}
    (h : l[i]? = some a) : a ∈ l := by
  obtain ⟨hlt, he⟩ := List.getElem?_eq_some.mp h
  exact he ▸ List.getElem_mem hlt

theorem lt_length_of_getElem?_some {α : Type} {l : List α} {i : Nat} {a : α}
    (h : l[i]? = some a) : i < l.length :=
  (List.getElem?_eq_some.mp h).1

theorem status_ne_completed_of_not_terminal {st : Status}
    (h : st.isTerminal = false) : st ≠ .completed := by
  cases st <;> simp_all [Status.isTerminal]

theorem runningStatusFor_eq (t : TaskType) :
    runningStatusFor t = .transcribing := by
  cases t <;> rfl

theorem firstNonTerminal_spec_some {cards : List Card} {i : Nat}
    (h : firstNonTerminal cards = some i) :
    ∃ c, cards[i]? = some c ∧ c.status.isTerminal = false := by
  induction cards generalizing i with
  | nil => simp [firstNonTerminal] at h
  | cons c cs ih =>
    by_cases ht : c.status.isTerminal
    · simp only [firstNonTerminal, ht, if_pos] at h
      obtain ⟨j, hj, hji⟩ := Option.map_eq_some'.mp h
      obtain ⟨d, hd, hdt⟩ := ih hj
      exact ⟨d, by simpa [← hji] using hd, hdt⟩
    · simp only [firstNonTerminal, ht, if_neg] at h
      obtain rfl : 0 = i := by
        cases h
        rfl
      exact ⟨c, by simp, by simpa using ht⟩

theorem firstNonTerminal_of {cards : List Card} {k : Nat} {c : Card}
    (hterm : ∀ j, j < k → (cards[j]?.all fun x => x.status.isTerminal) = true)
    (hk : cards[k]? = some c) (hc : c.status.isTerminal = false) :
    firstNonTerminal cards = some k := by
  induction cards generalizing k with
  | nil => simp at hk
  | cons d cs ih =>
    cases k with
    | zero =>
      simp only [List.getElem?_cons_zero, Option.some.injEq] at hk
      subst hk
      simp [firstNonTerminal, hc]
    | succ k =>
      have hd : d.status.isTerminal = true := by
        have := hterm 0 (Nat.succ_pos k)
        simpa using this
      have hrec : firstNonTerminal cs = some k :=
        ih (fun j hj => by simpa using hterm (j + 1) (Nat.succ_lt_succ hj))
          (by simpa using hk)
      simp [firstNonTerminal, hd, hrec]

/-! ## Claim C1 -/

/-- Claim C1, evaluation at the failing input: in a batch of three pending
jobs started with start_batch_process, after job 1 succeeds and the worker of
job 2 reports an error (so job 2 terminates as FAILED), job 3 is still
PENDING and was never started, no batch-finished event fired, and the
processing flag is still set: the batch stalls silently, because
on_task_finished connects only the finished signal of the job it starts, so
the error signal of job 2 has no connected handler and on_task_error never
runs. This contradicts the claim that job 3 is started and batch_finished
fires after its terminal transition. -/
theorem batch_stalls_after_second_job_failure :
    afterSecondJobFails.cards[2]? = some ⟨.pending, .transcribe, 0, 0⟩ ∧
    afterSecondJobFails.trace = [.started 0, .started 1] ∧
    Ev.batchFinished ∉ afterSecondJobFails.trace ∧
    afterSecondJobFails.processing = true := by decide

/-! ## Claim C2 -/

/-- Claim C2, counterexample: start_batch_process on an empty job list is not
free of state changes; starting from an idle empty interface the call flips
the processing flag to true before the empty check and leaves it set. -/
theorem start_batch_empty_mutates_state :
    (start_batch_process ⟨[], false, []⟩).processing = true ∧
    start_batch_process ⟨[], false, []⟩ ≠ ⟨[], false, []⟩ := by decide

/-- Claim C2 amended: start_batch_process on an empty job list shows a
warning and returns early, starting no job, recording no event and leaving
the (empty) job list unchanged, but it does mutate state: the processing flag
is set to true before the empty check and is not reset. -/
theorem start_batch_empty_only_sets_processing (s : SchedState)
    (h : s.cards = []) :
    start_batch_process s = { s with processing := true } := by
  obtain ⟨cards, proc, tr⟩ := s
  simp only at h
  subst h
  rfl

/-- Witness for start_batch_empty_only_sets_processing at a concrete idle
state. -/
theorem start_batch_empty_only_sets_processing_witness :
    (SchedState.mk [] false []).cards = [] ∧
    start_batch_process ⟨[], false, []⟩ =
      { SchedState.mk [] false [] with processing := true } :=
  ⟨rfl, start_batch_empty_only_sets_processing ⟨[], false, []⟩ rfl⟩

/-! ## Claim C5 -/

/-- Claim C5: merging the first two rows (the entries keyed 1 and 2, that is
row indices 0 and 1) of the three-entry document yields exactly the merged
entry spanning 0 to 2000 with space-joined texts followed by the old third
entry, re-keyed densely as 1 and 2. -/
theorem merge_rows_adjacent_example :
    merge_selected_rows doc3 [0, 1] =
      [("1", ⟨0, 2000, "a b", "A B"⟩), ("2", ⟨2000, 3000, "c", "C"⟩)] := by
  decide

/-! ## Claim C6 -/

/-- Claim C6, counterexample: setData on the start_time column with an
unparsable timestamp does not reject the edit; the invalid QTime makes
msecsTo return 0, the entry start_time 1000 is overwritten with 0, and the
method reports success. -/
theorem setData_bad_time_not_rejected :
    setData [("1", (⟨1000, 2000, "a", "A"⟩ : Entry))] 0 0 "garbage" .editRole =
      ([("1", ⟨0, 2000, "a", "A"⟩)], true) ∧
    (⟨0, 2000, "a", "A"⟩ : Entry) ≠ ⟨1000, 2000, "a", "A"⟩ := by decide

/-- Claim C6 amended: for every entry and every unparsable timestamp string,
setData on a time column does not reject the edit; it overwrites the
addressed time field with 0 (the msecsTo value of an invalid QTime), keeps
the other three fields, emits dataChanged and returns True. -/
theorem setData_bad_time_writes_zero (data : Doc) (row col : Nat) (k : String)
    (e : Entry) (v : String) (hrow : data[row]? = some (k, e))
    (hv : qtimeFromString v = none) (hcol : col = 0 ∨ col = 1) :
    setData data row col v .editRole =
      (data.set row
        (k, if col = 0 then { e with start_time := 0 }
            else { e with end_time := 0 }), true) := by
  rcases hcol with rfl | rfl <;>
    simp [setData, hrow, hv, msecsTo_from_midnight]

/-- Witness for setData_bad_time_writes_zero on a concrete document and the
unparsable string garbage. -/
theorem setData_bad_time_writes_zero_witness :
    (([("1", (⟨1000, 2000, "a", "A"⟩ : Entry))] : Doc)[0]? =
        some ("1", ⟨1000, 2000, "a", "A"⟩) ∧
      qtimeFromString "garbage" = none ∧ ((0 : Nat) = 0 ∨ (0 : Nat) = 1)) ∧
    setData [("1", (⟨1000, 2000, "a", "A"⟩ : Entry))] 0 0 "garbage" .editRole =
      (([("1", (⟨1000, 2000, "a", "A"⟩ : Entry))] : Doc).set 0
        ("1", if (0 : Nat) = 0 then
            { (⟨1000, 2000, "a", "A"⟩ : Entry) with start_time := 0 }
          else { (⟨1000, 2000, "a", "A"⟩ : Entry) with end_time := 0 }), true) :=
  ⟨⟨by decide, by decide, Or.inl rfl⟩,
    setData_bad_time_writes_zero _ 0 0 "1" _ "garbage" (by decide) (by decide)
      (Or.inl rfl)⟩

/-! ## Claim C7 -/

/-- Claim C7: the file intake queue is FIFO. Any sequence of enqueue calls
(file_queue.extend in on_batch_file_select) appends at the tail in order, so
the queue equals the prior queue followed by the concatenation of all
enqueued batches; _process_next_file removes and yields the head, which is
the oldest enqueued path, and on the empty queue it is an error-free no-op
that returns the queue unchanged. -/
theorem file_queue_fifo (batches : List (List String)) (q : List String) :
    batches.foldl file_queue_extend q = q ++ batches.flatten ∧
    (process_next_file q).2 = q.head? ∧
    (process_next_file q).1 = q.tail ∧
    process_next_file ([] : List String) = ([], none) := by
  refine ⟨?_, ?_, ?_, rfl⟩
  · induction batches generalizing q with
    | nil => simp
    | cons b bs ih =>
      simp only [List.foldl_cons, List.flatten_cons, file_queue_extend, ih,
        List.append_assoc]
  · cases q <;> rfl
  · cases q <;> rfl

/-! ## Claim C8 -/

/-- Claim C8, counterexample: with the Suspend-Host policy, accepting the
countdown dialog (clicking Ok) does issue the platform suspend command, while
the claim states that accepting cancels the action and no platform command is
issued on accept. -/
theorem completion_accept_issues_command :
    completion_dispatch .win32 .suspend .clickOk = (.suspendHost, some 60) ∧
    DispatchOutcome.suspendHost ≠ .noCmd := by decide

/-- Claim C8 amended: for the Suspend-Host and Shutdown-Host policies the
dispatcher shows the timedMessageBox countdown with its fixed 60 second
window, and the branch issuing the platform action runs exactly when the
dialog is accepted (Ok): clicking Cancel, or the 60 second auto-close (which
exec reports as Cancel), leaves the host running. On accept, suspend issues
the platform suspend command; shutdown issues the shutdown command on win32
and on other platforms raises AttributeError on the missing stop method
before any command. -/
theorem completion_dispatch_spec (plat : Platform) (todo : TodoWhenDone)
    (act : UserAction) (h : todo = .suspend ∨ todo = .shutdown) :
    (completion_dispatch plat todo act).2 = some 60 ∧
    ((completion_dispatch plat todo act).1 = .noCmd ↔ act ≠ .clickOk) := by
  rcases h with rfl | rfl <;> cases act <;> cases plat <;> decide

/-- Witness for completion_dispatch_spec: canceling the suspend countdown on
win32 issues nothing. -/
theorem completion_dispatch_spec_witness :
    (TodoWhenDone.suspend = .suspend ∨ TodoWhenDone.suspend = .shutdown) ∧
    ((completion_dispatch .win32 .suspend .clickCancel).2 = some 60 ∧
      ((completion_dispatch .win32 .suspend .clickCancel).1 = .noCmd ↔
        UserAction.clickCancel ≠ .clickOk)) :=
  ⟨Or.inl rfl, completion_dispatch_spec .win32 .suspend .clickCancel (Or.inl rfl)⟩

/-! ## Claim C3 -/

/-- Claim C3, counterexample: calling start_batch_process a second time while
a batch is active (here: one pending task already started) is not rejected
with BusyBatch and does perform a scheduling action: the scan runs again and
the first non-terminal job is started a second time, as the duplicated
started event shows. The only re-entrancy protection in the code is the
disabled start button. -/
theorem start_batch_no_reentrancy_guard :
    busyState.trace = [Ev.started 0] ∧
    (start_batch_process busyState).trace = [Ev.started 0, Ev.started 0] ∧
    (start_batch_process busyState).processing = true := by decide

/-- Claim C3 amended: a second start_batch_process call while the batch is
active performs no BusyBatch check; it re-runs the first-non-terminal scan,
connects the finished and error signals of that job once more (duplicating
the connections) and starts it again, recording a new started event, with the
processing flag left set. -/
theorem start_batch_busy_restarts (s : SchedState) (i : Nat)
    (hp : s.processing = true) (hf : firstNonTerminal s.cards = some i) :
    ∃ c, s.cards[i]? = some c ∧
      (start_batch_process s).trace = s.trace ++ [Ev.started i] ∧
      (start_batch_process s).cards[i]? =
        some ⟨runningStatusFor c.ttype, c.ttype, c.finConn + 1, c.errConn + 1⟩ ∧
      (start_batch_process s).processing = true := by
  obtain ⟨c, hc, hct⟩ := firstNonTerminal_spec_some hf
  refine ⟨c, hc, ?_⟩
  obtain ⟨cards, proc, tr⟩ := s
  simp only at hp hc hf
  subst hp
  have hlt : i < cards.length := lt_length_of_getElem?_some hc
  have hne : cards.isEmpty = false := by
    cases cards
    · simp at hc
    · rfl
  have h1 : (cards.set i ⟨c.status, c.ttype, c.finConn + 1, c.errConn⟩)[i]? =
      some ⟨c.status, c.ttype, c.finConn + 1, c.errConn⟩ :=
    List.getElem?_set_self (by simpa using hlt)
  have h2 : (cards.set i ⟨c.status, c.ttype, c.finConn + 1, c.errConn + 1⟩)[i]? =
      some ⟨c.status, c.ttype, c.finConn + 1, c.errConn + 1⟩ :=
    List.getElem?_set_self (by simpa using hlt)
  have h3 : (cards.set i
      ⟨runningStatusFor c.ttype, c.ttype, c.finConn + 1, c.errConn + 1⟩)[i]? =
      some ⟨runningStatusFor c.ttype, c.ttype, c.finConn + 1, c.errConn + 1⟩ :=
    List.getElem?_set_self (by simpa using hlt)
  have hstep : start_batch_process ⟨cards, true, tr⟩ =
      ⟨cards.set i ⟨runningStatusFor c.ttype, c.ttype, c.finConn + 1, c.errConn + 1⟩,
        true, tr ++ [Ev.started i]⟩ := by
    have hall : (cards.set i
        ⟨runningStatusFor c.ttype, c.ttype, c.finConn + 1, c.errConn + 1⟩).all
        (fun x => x.status.isTerminal) = false := by
      refine Bool.eq_false_iff.mpr fun hallT => ?_
      have := List.all_eq_true.mp hallT _ (mem_of_getElem?_some h3)
      simp [runningStatusFor_eq, Status.isTerminal] at this
    simp only [start_batch_process, connectFin, connectErr, card_start, hne,
      Bool.false_eq_true, if_false, hf, hc, h1, h2, List.set_set,
      if_neg (status_ne_completed_of_not_terminal hct), hall]
  rw [hstep]
  exact ⟨rfl, h3, rfl⟩

/-- Witness for start_batch_busy_restarts: the second call on the active
one-job batch starts job 0 again. -/
theorem start_batch_busy_restarts_witness :
    (busyState.processing = true ∧ firstNonTerminal busyState.cards = some 0) ∧
    (∃ c, busyState.cards[0]? = some c ∧
      (start_batch_process busyState).trace = busyState.trace ++ [Ev.started 0] ∧
      (start_batch_process busyState).cards[0]? =
        some ⟨runningStatusFor c.ttype, c.ttype, c.finConn + 1, c.errConn + 1⟩ ∧
      (start_batch_process busyState).processing = true) :=
  ⟨⟨by decide, by decide⟩,
    start_batch_busy_restarts busyState 0 (by decide) (by decide)⟩

/-! ## Claim C4 -/

/-- Claim C4, counterexample: cancel_batch_process calls TaskInfoCard.stop,
which never touches the task status, so a card that was TRANSCRIBING is still
TRANSCRIBING after the cancel: its status is neither terminal nor PENDING,
contradicting the claim. -/
theorem cancel_batch_leaves_running :
    (cancel_batch_process runningOneCard).cards[0]? =
      some ⟨.transcribing, .transcribe, 1, 1⟩ ∧
    Status.transcribing.isTerminal = false ∧
    Status.transcribing ≠ .pending := by decide

/-- Status set checked by the cancel loop of cancel_batch_process, which is
exactly the set of non-terminal statuses. -/
theorem nonterminal_filter_iff (st : Status) :
    ((st = Status.transcribing || st = .pending || st = .optimizing
      || st = .generating) = true) ↔ st.isTerminal = false := by
  cases st <;> decide

/-- Claim C4 amended: cancel_batch_process clears the processing flag and
invokes the per-job stop (thread termination plus UI reset, with no status
change), not the status-resetting per-job cancel, on exactly the jobs whose
status is in the set Transcribing, Pending, Optimizing, Generating; every job
keeps the status it had, so a running job stays in its running status rather
than ending terminal or Pending. The operation is safe to call in any state,
including when no batch is active. -/
theorem cancel_batch_spec (s : SchedState) (i : Nat) (c : Card)
    (hc : s.cards[i]? = some c) :
    (cancel_batch_process s).cards = s.cards ∧
    (cancel_batch_process s).processing = false ∧
    (Ev.stopped i ∈ (cancel_batch_process s).trace ↔
      Ev.stopped i ∈ s.trace ∨ c.status.isTerminal = false) := by
  have hlt : i < s.cards.length := lt_length_of_getElem?_some hc
  refine ⟨rfl, rfl, ?_⟩
  simp only [cancel_batch_process, List.mem_append]
  refine or_congr Iff.rfl ?_
  rw [List.mem_map]
  constructor
  · rintro ⟨a, ha, hEq⟩
    obtain rfl : a = i := by cases hEq; rfl
    have hmem := (List.mem_filter.mp ha).2
    simp only [hc] at hmem
    exact (nonterminal_filter_iff c.status).mp hmem
  · intro hnt
    refine ⟨i, List.mem_filter.mpr ⟨List.mem_range.mpr hlt, ?_⟩, rfl⟩
    simp only [hc]
    exact (nonterminal_filter_iff c.status).mpr hnt

/-- Witness for cancel_batch_spec on the active one-card batch whose job is
mid-transcription. -/
theorem cancel_batch_spec_witness :
    runningOneCard.cards[0]? = some ⟨.transcribing, .transcribe, 1, 1⟩ ∧
    ((cancel_batch_process runningOneCard).cards = runningOneCard.cards ∧
      (cancel_batch_process runningOneCard).processing = false ∧
      (Ev.stopped 0 ∈ (cancel_batch_process runningOneCard).trace ↔
        Ev.stopped 0 ∈ runningOneCard.trace ∨
          Status.transcribing.isTerminal = false)) :=
  ⟨by decide,
    cancel_batch_spec runningOneCard 0 ⟨.transcribing, .transcribe, 1, 1⟩
      (by decide)⟩

/-! ## Claim C10 -/

/-- Claim C10: TaskInfoCard.cancel forces the task status to PENDING whatever
it was before (the hypothesis places no constraint on the prior status, and
the witness cancels a COMPLETED job) and always emits the finished signal.
When the finished signal of the canceled job is connected to
on_task_finished and every job before it is terminal (as the scheduler
arranges for the jobs it has started), the emission synchronously re-runs the
scan, which finds the now-PENDING canceled job itself as the first
non-terminal job and starts it again: the trace gains a started event for the
same index and the card ends in the running status with its finished signal
connected a second time. -/
theorem card_cancel_restarts (s : SchedState) (k : Nat) (c : Card)
    (hp : s.processing = true) (hk : s.cards[k]? = some c) (hfin : c.finConn = 1)
    (hterm : ∀ j, j < k → (s.cards[j]?.all fun x => x.status.isTerminal) = true) :
    (card_cancel s k).trace = s.trace ++ [Ev.stopped k, Ev.started k] ∧
    (card_cancel s k).cards[k]? =
      some ⟨runningStatusFor c.ttype, c.ttype, 2, c.errConn⟩ := by
  obtain ⟨cards, proc, tr⟩ := s
  obtain ⟨st, tt, fc, ec⟩ := c
  simp only at hp hk hterm hfin
  subst hp
  subst hfin
  have hlt : k < cards.length := lt_length_of_getElem?_some hk
  have hP : (cards.set k ⟨Status.pending, tt, 1, ec⟩)[k]? =
      some ⟨Status.pending, tt, 1, ec⟩ :=
    List.getElem?_set_self (by simpa using hlt)
  have hfirst : firstNonTerminal (cards.set k ⟨Status.pending, tt, 1, ec⟩) =
      some k := by
    apply firstNonTerminal_of (c := ⟨Status.pending, tt, 1, ec⟩)
    · intro j hj
      rw [List.getElem?_set_ne (by omega)]
      exact hterm j hj
    · exact hP
    · rfl
  have hC : (cards.set k ⟨Status.pending, tt, 2, ec⟩)[k]? =
      some ⟨Status.pending, tt, 2, ec⟩ :=
    List.getElem?_set_self (by simpa using hlt)
  have hstep : card_cancel ⟨cards, true, tr⟩ k =
      ⟨cards.set k ⟨runningStatusFor tt, tt, 2, ec⟩,
        true, tr ++ [Ev.stopped k] ++ [Ev.started k]⟩ := by
    simp only [card_cancel, card_stop, emitFinished, on_task_finished, connectFin,
      card_start, hk, hP, runN, hfirst, hC, List.set_set]
    rw [if_neg (by decide : ¬ (Status.pending = Status.completed))]
  rw [hstep]
  refine ⟨by simp, ?_⟩
  exact List.getElem?_set_self (by simpa using hlt)

/-- Witness for card_cancel_restarts: canceling the COMPLETED, still
connected job 0 of an active batch restarts it. -/
theorem card_cancel_restarts_witness :
    (completedConnected.processing = true ∧
      completedConnected.cards[0]? = some ⟨.completed, .transcribe, 1, 1⟩ ∧
      (⟨Status.completed, .transcribe, 1, 1⟩ : Card).finConn = 1 ∧
      (∀ j, j < 0 →
        (completedConnected.cards[j]?.all fun x => x.status.isTerminal) = true)) ∧
    ((card_cancel completedConnected 0).trace =
        completedConnected.trace ++ [Ev.stopped 0, Ev.started 0] ∧
      (card_cancel completedConnected 0).cards[0]? =
        some ⟨runningStatusFor .transcribe, .transcribe, 2, 1⟩) :=
  ⟨⟨by decide, by decide, by decide, by decide⟩,
    card_cancel_restarts completedConnected 0 ⟨.completed, .transcribe, 1, 1⟩
      (by decide) (by decide) (by decide) (by decide)⟩

/-- Dense numbering preserves the number of entries. -/
theorem numberFrom_length (n : Nat) (es : List Entry) :
    (numberFrom n es).length = es.length := by
  induction es generalizing n with
  | nil => rfl
  | cons e es ih => simp [numberFrom, ih]

/-- Dense numbering splits over append, continuing the key counter. -/
theorem numberFrom_append (n : Nat) (a b : List Entry) :
    numberFrom n (a ++ b) = numberFrom n a ++ numberFrom (n + a.length) b := by
  induction a generalizing n with
  | nil => simp [numberFrom]
  | cons e es ih =>
    simp only [List.cons_append, numberFrom, List.length_cons, List.append_eq]
    rw [ih]
    have harith : n + 1 + es.length = n + (es.length + 1) := by omega
    rw [harith]

/-- The values of a densely numbered list are the original entries. -/
theorem numberFrom_map_snd (n : Nat) (es : List Entry) :
    (numberFrom n es).map Prod.snd = es := by
  induction es generalizing n with
  | nil => rfl
  | cons e es ih => simp [numberFrom, ih]

/-- The keys of a densely numbered list are the decimal strings of the
consecutive counters. -/
theorem numberFrom_map_fst (n : Nat) (es : List Entry) :
    (numberFrom n es).map Prod.fst =
      (List.range es.length).map (fun j => toString (n + j + 1)) := by
  induction es generalizing n with
  | nil => rfl
  | cons e es ih =>
    simp only [numberFrom, List.map_cons, List.length_cons,
      List.range_succ_eq_map, ih, List.map_map]
    congr 1
    apply List.map_congr_left
    intro j hj
    simp only [Function.comp_apply]
    have hj2 : n + Nat.succ j + 1 = n + 1 + j + 1 := by omega
    rw [hj2]

/-- Dict lookup on a list of pairs with pairwise distinct keys returns the
value stored with the key (the Python dict invariant behind data[key]). -/
theorem lookup_eq_of_nodup (d : Doc) (hnd : (d.map Prod.fst).Nodup)
    {k : String} {e : Entry} (hmem : (k, e) ∈ d) : d.lookup k = some e := by
  induction d with
  | nil => cases hmem
  | cons q d ih =>
    obtain ⟨qk, qv⟩ := q
    rcases List.mem_cons.mp hmem with heq | hmem2
    · obtain ⟨rfl, rfl⟩ := Prod.mk.injEq .. |>.mp heq.symm
      simp [List.lookup]
    · have hne : (k == qk) = false := by
        refine Bool.eq_false_iff.mpr fun hbeq => ?_
        have hk : k = qk := eq_of_beq hbeq
        have : qk ∈ d.map Prod.fst := hk ▸ List.mem_map_of_mem Prod.fst hmem2
        exact (List.nodup_cons.mp hnd).1 this
      simp only [List.lookup, hne]
      exact ih (List.nodup_cons.mp hnd).2 hmem2

/-- Looking every key of a sublist back up in the dict reproduces the values
of that sublist. -/
theorem map_lookup_section (d : Doc) (hnd : (d.map Prod.fst).Nodup)
    (l : Doc) (hsub : l ⊆ d) :
    (l.map Prod.fst).map (fun k => (d.lookup k).getD dummyEntry) =
      l.map Prod.snd := by
  rw [List.map_map]
  apply List.map_congr_left
  intro p hp
  have hl : d.lookup p.1 = some p.2 := lookup_eq_of_nodup d hnd (hsub hp)
  simp [Function.comp, hl]

/-- Once the enumeration index has passed rows[0], the merge loop only
re-keys the remaining preserved entries. -/
theorem mergeLoop_after (lk : String → Entry) (m : Entry) (r0 : Nat) :
    ∀ (ks : List String) (i n : Nat), r0 < i →
      mergeLoop lk m r0 i n ks = numberFrom n (ks.map lk) := by
  intro ks
  induction ks with
  | nil => intro i n _; rfl
  | cons key rest ih =>
    intro i n hi
    rw [mergeLoop, if_neg (by omega)]
    simp only [List.map_cons, numberFrom]
    rw [ih (i + 1) (n + 1) (by omega)]

/-- While the enumeration index is at most rows[0] and rows[0] falls inside
the remaining keys, the loop re-keys the keys before that point, inserts the
merged item there, and re-keys the rest after it. -/
theorem mergeLoop_mid (lk : String → Entry) (m : Entry) (r0 : Nat) :
    ∀ (ks : List String) (i n : Nat), i ≤ r0 → r0 - i < ks.length →
      mergeLoop lk m r0 i n ks =
        numberFrom n ((ks.map lk).take (r0 - i)) ++
          numberFrom (n + (r0 - i)) (m :: (ks.map lk).drop (r0 - i)) := by
  intro ks
  induction ks with
  | nil => intro i n _ h; simp at h
  | cons key rest ih =>
    intro i n hle hlt
    by_cases hir : i = r0
    · subst hir
      rw [mergeLoop, if_pos rfl]
      have h0 : i - i = 0 := by omega
      simp only [h0, List.take_zero, numberFrom, List.drop_zero, List.map_cons,
        List.nil_append, Nat.add_zero]
      rw [mergeLoop_after lk m i rest (i + 1) (n + 2) (by omega)]
    · have hilt : i < r0 := by omega
      rw [mergeLoop, if_neg hir]
      have ht : r0 - i = (r0 - (i + 1)) + 1 := by omega
      rw [ht]
      simp only [List.map_cons, List.take_succ_cons, numberFrom, List.drop_succ_cons,
        List.cons_append]
      rw [ih (i + 1) (n + 1) (by omega) (by simp at hlt ⊢; omega)]
      have harith : n + 1 + (r0 - (i + 1)) = n + (r0 - (i + 1) + 1) := by omega
      rw [harith]
      rfl

/-- When rows[0] lies beyond the remaining keys the loop never inserts the
merged item and only re-keys. -/
theorem mergeLoop_none (lk : String → Entry) (m : Entry) (r0 : Nat) :
    ∀ (ks : List String) (i n : Nat), i ≤ r0 → ks.length ≤ r0 - i →
      mergeLoop lk m r0 i n ks = numberFrom n (ks.map lk) := by
  intro ks
  induction ks with
  | nil => intro i n _ _; rfl
  | cons key rest ih =>
    intro i n hle hlen
    have hir : i ≠ r0 := by simp at hlen; omega
    rw [mergeLoop, if_neg hir]
    simp only [List.map_cons, numberFrom]
    rw [ih (i + 1) (n + 1) (by simp at hlen; omega) (by simp at hlen ⊢; omega)]

/-- getLastD of a non-empty list is one of its members. -/
theorem getLastD_mem : ∀ (l : List Nat) (d : Nat), l ≠ [] → l.getLastD d ∈ l := by
  intro l
  induction l with
  | nil => intro d h; exact absurd rfl h
  | cons a l ih =>
    intro d _
    cases l with
    | nil => simp [List.getLastD]
    | cons b t =>
      rw [List.getLastD_cons]
      exact List.mem_cons_of_mem a (ih a (by simp))

/-- In a strictly increasing list of at least two indices the first selected
row precedes the last one. -/
theorem headD_lt_getLastD (l : List Nat) (hp : l.Pairwise (· < ·))
    (hlen : 2 ≤ l.length) : l.headD 0 < l.getLastD 0 := by
  cases l with
  | nil => simp at hlen
  | cons a t =>
    cases t with
    | nil => simp at hlen
    | cons b t2 =>
      have hrel := (List.pairwise_cons.mp hp).1
      have hmem : (b :: t2).getLastD a ∈ b :: t2 := getLastD_mem _ a (by simp)
      have := hrel _ hmem
      simpa [List.getLastD_cons] using this

/-- Structure of merge_selected_rows for any valid sorted selection over a
document with distinct keys: the result is the dense renumbering of the
entries before rows[0], then the merged item, then the entries after
rows[-1]; the whole positional span between rows[0] and rows[-1] is gone. -/
theorem merge_selected_rows_structure (data : Doc) (rows : List Nat)
    (hnd : (data.map Prod.fst).Nodup)
    (hsort : rows.Pairwise (· < ·))
    (hlen : 2 ≤ rows.length)
    (hlast : rows.getLastD 0 < data.length) :
    merge_selected_rows data rows =
      numberFrom 0 ((data.map Prod.snd).take (rows.headD 0) ++
        merged_entry data rows ::
          (data.map Prod.snd).drop (rows.getLastD 0 + 1)) := by
  have hr0L : rows.headD 0 < rows.getLastD 0 := headD_lt_getLastD rows hsort hlen
  have hr0len : rows.headD 0 < data.length := lt_trans hr0L hlast
  have hcond : (rows.isEmpty || decide (rows.length < 2)) = false := by
    have h1 : rows.isEmpty = false := by
      cases rows
      · simp at hlen
      · rfl
    have h2 : decide (rows.length < 2) = false := by
      simp only [decide_eq_false_iff_not]
      omega
    simp [h1, h2]
  have hklen : (data.map Prod.fst).length = data.length := List.length_map data Prod.fst
  have hvlen : (data.map Prod.snd).length = data.length := List.length_map data Prod.snd
  have htakelen : ((data.map Prod.fst).take (rows.headD 0)).length = rows.headD 0 :=
    List.length_take_of_le (by omega)
  have hvtakelen : ((data.map Prod.snd).take (rows.headD 0)).length = rows.headD 0 :=
    List.length_take_of_le (by omega)
  have hmapTake :
      ((data.map Prod.fst).take (rows.headD 0)).map
          (fun k => (data.lookup k).getD dummyEntry) =
        (data.map Prod.snd).take (rows.headD 0) := by
    rw [← List.map_take, map_lookup_section data hnd _ (List.take_subset _ _),
      List.map_take]
  have hmapDrop :
      ((data.map Prod.fst).drop (rows.getLastD 0 + 1)).map
          (fun k => (data.lookup k).getD dummyEntry) =
        (data.map Prod.snd).drop (rows.getLastD 0 + 1) := by
    rw [← List.map_drop, map_lookup_section data hnd _ (List.drop_subset _ _),
      List.map_drop]
  simp only [merge_selected_rows, hcond, Bool.false_eq_true, if_false]
  rcases Nat.eq_or_lt_of_le (Nat.succ_le_of_lt hlast) with heq | hlt2
  · -- the selection reaches the last entry: the merged item is appended
    have hdropnilK : (data.map Prod.fst).drop (rows.getLastD 0 + 1) = [] := by
      apply List.drop_eq_nil_of_le
      omega
    have hdropnilV : (data.map Prod.snd).drop (rows.getLastD 0 + 1) = [] := by
      apply List.drop_eq_nil_of_le
      omega
    rw [hdropnilK, List.append_nil]
    rw [if_pos (by omega)]
    rw [mergeLoop_none _ _ _ _ 0 0 (Nat.zero_le _) (by omega)]
    rw [hmapTake]
    rw [numberFrom_length, hvtakelen, hdropnilV]
    rw [numberFrom_append]
    rw [hvtakelen, Nat.zero_add]
    rfl
  · -- entries remain after the selection: the merged item is inserted inline
    have hpreslen :
        ((data.map Prod.fst).take (rows.headD 0) ++
          (data.map Prod.fst).drop (rows.getLastD 0 + 1)).length =
          rows.headD 0 + (data.length - (rows.getLastD 0 + 1)) := by
      rw [List.length_append, htakelen, List.length_drop, hklen]
    rw [if_neg (by rw [hpreslen]; omega)]
    rw [mergeLoop_mid _ _ _ _ 0 0 (Nat.zero_le _) (by rw [hpreslen]; omega)]
    rw [List.map_append, hmapTake, hmapDrop]
    simp only [Nat.sub_zero, Nat.zero_add]
    rw [List.take_left' hvtakelen, List.drop_left' hvtakelen]
    rw [numberFrom_append, hvtakelen, Nat.zero_add]

/-- Claim C9: for every non-contiguous selection (a witness index strictly
between the first and last selected row is not selected), merge_selected_rows
removes the whole positional span from rows[0] to rows[-1]: the resulting
values are exactly the entries before rows[0], then the merged item, then the
entries after rows[-1] (so the unselected entries inside the span are deleted
and contribute nowhere), the keys are re-issued as the dense decimal sequence
1..N, and both text fields of the merged item are space-joins over the
selected rows only. -/
theorem merge_noncontiguous_removes_span (data : Doc) (rows : List Nat)
    (hnd : (data.map Prod.fst).Nodup)
    (hsort : rows.Pairwise (· < ·))
    (hlen : 2 ≤ rows.length)
    (hlast : rows.getLastD 0 < data.length)
    (hnc : ∃ j, j < rows.getLastD 0 ∧ rows.headD 0 < j ∧ j ∉ rows) :
    (merge_selected_rows data rows).map Prod.snd =
      (data.map Prod.snd).take (rows.headD 0) ++
        merged_entry data rows :: (data.map Prod.snd).drop (rows.getLastD 0 + 1) ∧
    (merge_selected_rows data rows).map Prod.fst =
      (List.range (merge_selected_rows data rows).length).map
        (fun j => toString (j + 1)) ∧
    (merged_entry data rows).original_subtitle =
      String.intercalate " "
        (rows.map fun r =>
          ((data.map Prod.snd).getD r dummyEntry).original_subtitle) ∧
    (merged_entry data rows).translated_subtitle =
      String.intercalate " "
        (rows.map fun r =>
          ((data.map Prod.snd).getD r dummyEntry).translated_subtitle) := by
  have hkey := merge_selected_rows_structure data rows hnd hsort hlen hlast
  refine ⟨?_, ?_, rfl, rfl⟩
  · rw [hkey, numberFrom_map_snd]
  · rw [hkey, numberFrom_map_fst, numberFrom_length]
    apply List.map_congr_left
    intro j hj
    have h0 : 0 + j + 1 = j + 1 := by omega
    rw [h0]

/-- Witness for merge_noncontiguous_removes_span: the three-entry document
with the non-contiguous selection of rows 0 and 2 (row 1 unselected). -/
theorem merge_noncontiguous_removes_span_witness :
    ((doc3.map Prod.fst).Nodup ∧ ([0, 2] : List Nat).Pairwise (· < ·) ∧
      2 ≤ ([0, 2] : List Nat).length ∧
      ([0, 2] : List Nat).getLastD 0 < doc3.length ∧
      (∃ j, j < ([0, 2] : List Nat).getLastD 0 ∧
        ([0, 2] : List Nat).headD 0 < j ∧ j ∉ ([0, 2] : List Nat))) ∧
    ((merge_selected_rows doc3 [0, 2]).map Prod.snd =
      (doc3.map Prod.snd).take (([0, 2] : List Nat).headD 0) ++
        merged_entry doc3 [0, 2] ::
          (doc3.map Prod.snd).drop (([0, 2] : List Nat).getLastD 0 + 1) ∧
    (merge_selected_rows doc3 [0, 2]).map Prod.fst =
      (List.range (merge_selected_rows doc3 [0, 2]).length).map
        (fun j => toString (j + 1)) ∧
    (merged_entry doc3 [0, 2]).original_subtitle =
      String.intercalate " "
        (([0, 2] : List Nat).map fun r =>
          ((doc3.map Prod.snd).getD r dummyEntry).original_subtitle) ∧
    (merged_entry doc3 [0, 2]).translated_subtitle =
      String.intercalate " "
        (([0, 2] : List Nat).map fun r =>
          ((doc3.map Prod.snd).getD r dummyEntry).translated_subtitle)) :=
  ⟨⟨by decide, by decide, by decide, by decide, ⟨1, by decide⟩⟩,
    merge_noncontiguous_removes_span doc3 [0, 2] (by decide) (by decide)
      (by decide) (by decide) ⟨1, by decide⟩⟩
